import Mathlib

/-!
Verification of the Nazaré wave-height trend forecaster
(src/nazare-wave-forecast-report.py, forecasting section, lines 250-340).

The forecaster pipeline in the source is:
  1. resample the observation series to hourly buckets, taking the mean of
     each bucket and linearly interpolating empty buckets
     (hist_df.set_index("timestamp")["wave_height"].resample("H").mean().interpolate());
  2. refuse to forecast when the hourly series has fewer than 10 points;
  3. fit a degree-1 polynomial by least squares (np.polyfit(t_hist, y_hist, 1)),
     compute residuals and sigma = np.std(residuals) (population std, divisor N);
  4. evaluate the trend at 25 hourly offsets starting at the last history
     offset, and build the band upper = forecast + 1.96*sigma,
     lower = np.clip(forecast - 1.96*sigma, 0, None).

Timestamps are modelled as rational numbers of hours since an arbitrary
epoch; values are rational (the float arithmetic of the source is modelled
exactly over the rationals, with sigma living in the reals because of the
square root).
-/

namespace NazareForecast

/-- One sensor reading: timestamp (in hours since an epoch, may be
fractional) and wave-height value.  Mirrors one row of the
(TIMESTAMP, WAVE_HEIGHT) frame loaded by load_recent_history. -/
structure Obs where
  t : ℚ
  v : ℚ
deriving DecidableEq

/-- The hour bucket an observation falls in: floor of its timestamp,
mirroring the bucketing done by .resample("H"). -/
def hourOf (o : Obs) : ℤ := ⌊o.t⌋

/-- Default observation used only as a getD/headD fallback. -/
def defaultObs : Obs := ⟨0, 0⟩

/-- Hour of the first observation: the start of the resampled grid. -/
def firstHour (obs : List Obs) : ℤ := hourOf (obs.headD defaultObs)

/-- Hour of the last observation: the end of the resampled grid. -/
def lastHour (obs : List Obs) : ℤ := hourOf (obs.getLastD defaultObs)

/-- Number of hourly buckets of the resampled grid, covering
[firstHour, lastHour] inclusive. -/
def gridLen (obs : List Obs) : ℕ := (lastHour obs - firstHour obs).toNat + 1

/-- Values of the observations falling in hour bucket h. -/
def bucket (obs : List Obs) (h : ℤ) : List ℚ :=
  (obs.filter (fun o => decide (hourOf o = h))).map Obs.v

/-- Arithmetic mean of a list (sum / length), as computed by pandas .mean()
on a resample bucket. -/
def mean (l : List ℚ) : ℚ := l.sum / l.length

/-- The hourly buckets before interpolation: the mean of each non-empty
bucket, none (NaN) for empty buckets.  Mirrors .resample("H").mean(). -/
def rawBuckets (obs : List Obs) : List (Option ℚ) :=
  (List.range (gridLen obs)).map (fun (k : ℕ) =>
    if bucket obs (firstHour obs + (k : ℤ)) = [] then none
    else some (mean (bucket obs (firstHour obs + (k : ℤ)))))

/-- Largest index j < k holding a value, together with that value. -/
def findPrev (l : List (Option ℚ)) : ℕ → Option (ℕ × ℚ)
  | 0 => none
  | k + 1 =>
    match l.getD k none with
    | some v => some (k, v)
    | none => findPrev l k

/-- First valued entry of a list of optional values, with its index. -/
def firstSome : List (Option ℚ) → Option (ℕ × ℚ)
  | [] => none
  | none :: rest => (firstSome rest).map (fun p => (p.1 + 1, p.2))
  | some v :: _ => some (0, v)

/-- Smallest index m > k holding a value, together with that value. -/
def findNext (l : List (Option ℚ)) (k : ℕ) : Option (ℕ × ℚ) :=
  (firstSome (l.drop (k + 1))).map (fun p => (k + 1 + p.1, p.2))

/-- Value of position k after pandas .interpolate() (method "linear",
default limit direction): a valued position keeps its value; a gap between
two valued positions is filled linearly in the index; a gap after the last
valued position is filled with that last value; positions before the first
valued position stay empty. -/
def interpAt (l : List (Option ℚ)) (k : ℕ) : Option ℚ :=
  match l.getD k none with
  | some v => some v
  | none =>
    match findPrev l k, findNext l k with
    | some jp, some mp =>
        some (jp.2 + (mp.2 - jp.2) * ((k : ℚ) - (jp.1 : ℚ)) / ((mp.1 : ℚ) - (jp.1 : ℚ)))
    | some jp, none => some jp.2
    | none, _ => none

/-- The resampled hourly series: for each bucket k its hour timestamp
(firstHour + k) and its interpolated value.  Mirrors
.resample("H").mean().interpolate(). -/
def resample (obs : List Obs) : List (ℚ × ℚ) :=
  (List.range (gridLen obs)).map (fun (k : ℕ) =>
    ((firstHour obs : ℚ) + (k : ℚ), (interpAt (rawBuckets obs) k).getD 0))

/-- Hour offsets of the hourly series from its first timestamp:
t_hist = (ts.index - base_time).total_seconds() / 3600, which for the
hourly grid is exactly 0, 1, ..., n-1. -/
def tHist (n : ℕ) : List ℚ := (List.range n).map (fun (i : ℕ) => (i : ℚ))

/-- Dot product of two lists of rationals. -/
def dot (xs ys : List ℚ) : ℚ := ((xs.zip ys).map (fun p => p.1 * p.2)).sum

/-- Slope of the degree-1 least-squares fit:
(N * sum t*y - sum t * sum y) / (N * sum t^2 - (sum t)^2). -/
def fitSlope (ts ys : List ℚ) : ℚ :=
  ((ys.length : ℚ) * dot ts ys - ts.sum * ys.sum) /
    ((ys.length : ℚ) * dot ts ts - ts.sum * ts.sum)

/-- Degree-1 least-squares fit, as computed by np.polyfit(ts, ys, 1):
slope a and intercept b = (sum y - a * sum t) / N of the
ordinary-least-squares affine trend. -/
def polyfit1 (ts ys : List ℚ) : ℚ × ℚ :=
  (fitSlope ts ys, (ys.sum - fitSlope ts ys * ts.sum) / (ys.length : ℚ))

/-- np.polyval for a degree-1 coefficient pair (a, b): a * t + b. -/
def polyval1 (c : ℚ × ℚ) (t : ℚ) : ℚ := c.1 * t + c.2

/-- Residuals observed minus fitted, y_hist - np.polyval(coeffs, t_hist). -/
def residuals (ts ys : List ℚ) : List ℚ :=
  (ts.zip ys).map (fun p => p.2 - polyval1 (polyfit1 ts ys) p.1)

/-- np.std(l) squared: the mean squared deviation from the mean
(population variance, divisor N). -/
def npVar (l : List ℚ) : ℚ := ((l.map (fun x => (x - mean l) ^ 2)).sum) / (l.length : ℚ)

/-- The two failure modes of the forecasting section: the empty-input
branch (line 252, hist_df.empty) and the density branch (line 266,
len(ts) < 10).  Modelled from the spec: the spec names these two distinct
branches EmptyInputError and InsufficientDataError. -/
inductive ForecastError where
  | emptyInput
  | insufficientData
deriving DecidableEq

/-- The data computed by a successful run of the forecasting section:
the hourly history series, the fitted slope a and intercept b
(coeffs = np.polyfit(t_hist, y_hist, 1)), and sigma2 = the population
variance of the residuals (so that sigma = np.std(residuals) is its
square root). -/
structure ForecastResult where
  history : List (ℚ × ℚ)
  a : ℚ
  b : ℚ
  sigma2 : ℚ
deriving DecidableEq

/-- The fit stage applied to an hourly series: coeffs = np.polyfit over
offsets 0..n-1, residuals, and the variance of the residuals. -/
def mkResult (ts : List (ℚ × ℚ)) : ForecastResult :=
  { history := ts
    a := (polyfit1 (tHist ts.length) (ts.map Prod.snd)).1
    b := (polyfit1 (tHist ts.length) (ts.map Prod.snd)).2
    sigma2 := npVar (residuals (tHist ts.length) (ts.map Prod.snd)) }

/-- Minimum number of hourly points below which no forecast is attempted
(the literal 10 of line 266). -/
def min_points_required : ℕ := 10

/-- The forecasting section as a function: empty input is rejected first
(line 252), then the hourly series is built and rejected when it has fewer
than 10 points (line 266), otherwise the trend fit is performed. -/
def forecaster (obs : List Obs) : Except ForecastError ForecastResult :=
  if obs = [] then .error .emptyInput
  else if (resample obs).length < min_points_required then .error .insufficientData
  else .ok (mkResult (resample obs))

/-- The fixed forecast horizon (horizon_hours = 24 of line 280). -/
def horizon_hours : ℕ := 24

/-- The i-th future offset: future_t = np.arange(last_t, last_t + 25)
where last_t = t_hist[-1], so entry i is last_t + i. -/
def futureT (n : ℕ) (i : ℕ) : ℚ := (tHist n).getLastD 0 + (i : ℚ)

/-- The i-th point forecast value: np.polyval(coeffs, future_t)[i]. -/
def forecastVal (r : ForecastResult) (i : ℕ) : ℚ :=
  polyval1 (r.a, r.b) (futureT r.history.length i)

/-- sigma = np.std(residuals): square root of the residual population
variance. -/
noncomputable def sigma (r : ForecastResult) : ℝ := Real.sqrt r.sigma2

/-- The i-th upper-band value: forecast_values + 1.96 * sigma (line 289). -/
noncomputable def upperVal (r : ForecastResult) (i : ℕ) : ℝ :=
  (forecastVal r i : ℝ) + 1.96 * sigma r

/-- The i-th lower-band value:
np.clip(forecast_values - 1.96 * sigma, 0, None) (line 290). -/
noncomputable def lowerVal (r : ForecastResult) (i : ℕ) : ℝ :=
  max 0 ((forecastVal r i : ℝ) - 1.96 * sigma r)

/-- The i-th future timestamp: ts.index[-1] + pd.Timedelta(hours=i). -/
def futureTs (r : ForecastResult) (i : ℕ) : ℚ :=
  (r.history.getLastD (0, 0)).1 + (i : ℚ)

/-- The forecast sequence: 25 (timestamp, value) points. -/
def forecastPts (r : ForecastResult) : List (ℚ × ℚ) :=
  (List.range (horizon_hours + 1)).map (fun i => (futureTs r i, forecastVal r i))

/-- The upper-band sequence: 25 (timestamp, value) points. -/
noncomputable def upperPts (r : ForecastResult) : List (ℚ × ℝ) :=
  (List.range (horizon_hours + 1)).map (fun i => (futureTs r i, upperVal r i))

/-- The lower-band sequence: 25 (timestamp, value) points. -/
noncomputable def lowerPts (r : ForecastResult) : List (ℚ × ℝ) :=
  (List.range (horizon_hours + 1)).map (fun i => (futureTs r i, lowerVal r i))

/-- Modelled from the spec: the population standard deviation of a list,
square root of (sum of squared deviations from the mean) / N (divisor N,
not N - 1).  Used only to compare the pipeline sigma against the spec
wording of claim C8. -/
noncomputable def popStd (l : List ℚ) : ℝ :=
  Real.sqrt ((((l.map (fun x => (x - mean l) ^ 2)).sum / (l.length : ℚ) : ℚ)) : ℝ)

/-- Concrete declining history: one observation per hour at hours 0..9
with values 9, 8, ..., 0.  Its fitted trend is exactly value = 9 - t,
which extrapolates to negative forecast values within the horizon. -/
def cObs : List Obs :=
  [⟨0, 9⟩, ⟨1, 8⟩, ⟨2, 7⟩, ⟨3, 6⟩, ⟨4, 5⟩, ⟨5, 4⟩, ⟨6, 3⟩, ⟨7, 2⟩, ⟨8, 1⟩, ⟨9, 0⟩]

/-- The forecast result the pipeline produces on cObs: slope -1,
intercept 9, zero residual variance. -/
def cRes : ForecastResult :=
  { history := [(0, 9), (1, 8), (2, 7), (3, 6), (4, 5), (5, 4), (6, 3), (7, 2), (8, 1), (9, 0)]
    a := -1
    b := 9
    sigma2 := 0 }

/-- Nine hourly observations: one short of the density threshold. -/
def obs9 : List Obs :=
  [⟨0, 1⟩, ⟨1, 1⟩, ⟨2, 1⟩, ⟨3, 1⟩, ⟨4, 1⟩, ⟨5, 1⟩, ⟨6, 1⟩, ⟨7, 1⟩, ⟨8, 1⟩]

/-- Ten hourly observations: exactly at the density threshold. -/
def obs10 : List Obs :=
  [⟨0, 1⟩, ⟨1, 1⟩, ⟨2, 1⟩, ⟨3, 1⟩, ⟨4, 1⟩, ⟨5, 1⟩, ⟨6, 1⟩, ⟨7, 1⟩, ⟨8, 1⟩, ⟨9, 1⟩]

/-- Two observations 2.5 hours apart, leaving hour bucket 1 empty: a
concrete input exercising the interpolation path of the resampler. -/
def c7obs : List Obs := [⟨0, 1⟩, ⟨5 / 2, 4⟩]

/-- A three-point hourly series used to instantiate the sigma claim. -/
def c8ts : List (ℚ × ℚ) := [(0, 1), (1, 2), (2, 4)]

/-- An hourly series whose timestamps are 0..n-1 and whose values are all
c: the flat-input history of claim C9. -/
def constHist (n : ℕ) (c : ℚ) : List (ℚ × ℚ) := (tHist n).map (fun t => (t, c))

deriving instance DecidableEq for Except

lemma tHist_length (n : ℕ) : (tHist n).length = n := by
  rw [tHist, List.length_map, List.length_range]

lemma tHist_getLastD (n : ℕ) (h : 1 ≤ n) : (tHist n).getLastD 0 = (n : ℚ) - 1 := by
  obtain ⟨m, rfl⟩ : ∃ m, n = m + 1 := ⟨n - 1, by omega⟩
  simp [tHist, List.range_succ]

lemma resample_length (obs : List Obs) : (resample obs).length = gridLen obs := by
  rw [resample, List.length_map, List.length_range]

lemma cObs_firstHour : firstHour cObs = 0 := by
  norm_num [firstHour, hourOf, cObs, defaultObs]

lemma cObs_lastHour : lastHour cObs = 9 := by
  norm_num [lastHour, hourOf, cObs, defaultObs]

lemma cObs_gridLen : gridLen cObs = 10 := by
  rw [gridLen, cObs_firstHour, cObs_lastHour]
  decide

lemma range10 : List.range 10 = [0, 1, 2, 3, 4, 5, 6, 7, 8, 9] := by decide

lemma cObs_rawBuckets : rawBuckets cObs =
    [some 9, some 8, some 7, some 6, some 5, some 4, some 3, some 2, some 1, some 0] := by
  rw [rawBuckets, cObs_gridLen, cObs_firstHour, range10]
  norm_num [bucket, hourOf, cObs, mean, List.filter_cons, List.filter_nil]

lemma cObs_resample : resample cObs = cRes.history := by
  rw [resample, cObs_gridLen, cObs_firstHour, range10]
  norm_num [cObs_rawBuckets, interpAt, cRes, List.getD]

lemma cObs_mkResult : mkResult cRes.history = cRes := by
  rw [mkResult]
  norm_num [cRes, tHist, range10, polyfit1, fitSlope, dot, npVar, residuals, polyval1, mean]

lemma cObs_forecaster : forecaster cObs = Except.ok cRes := by
  rw [forecaster, if_neg (by simp [cObs]), cObs_resample,
    if_neg (by norm_num [cRes, min_points_required]), cObs_mkResult]

lemma cRes_forecastVal (i : ℕ) : forecastVal cRes i = -1 * (9 + (i : ℚ)) + 9 := by
  have hlen : cRes.history.length = 10 := by norm_num [cRes]
  rw [forecastVal, polyval1, futureT, hlen, tHist_getLastD 10 (by norm_num)]
  norm_num [cRes]

/-- Claim C2: the band values are exactly upper = forecast + 1.96 * sigma
and lower = max 0 (forecast - 1.96 * sigma), hence the lower band is
non-negative at every index, even when the unclamped value is negative. -/
theorem C2_band_formula (r : ForecastResult) (i : ℕ) :
    upperVal r i = (forecastVal r i : ℝ) + 1.96 * Real.sqrt r.sigma2 ∧
    lowerVal r i = max 0 ((forecastVal r i : ℝ) - 1.96 * Real.sqrt r.sigma2) ∧
    0 ≤ lowerVal r i :=
  ⟨rfl, rfl, le_max_left 0 _⟩

/-- Claim C4: the forecaster on the empty observation sequence fails with
the empty-input error, which is a distinct error from the
insufficient-data error. -/
theorem C4_empty_input :
    forecaster ([] : List Obs) = Except.error ForecastError.emptyInput ∧
    ForecastError.emptyInput ≠ ForecastError.insufficientData :=
  ⟨rfl, by decide⟩

/-- Claim C6: the forecast, upper-band and lower-band sequences all have
length horizon_hours + 1 = 25 and identical timestamps. -/
theorem C6_lengths_timestamps (r : ForecastResult) :
    (forecastPts r).length = horizon_hours + 1 ∧
    (upperPts r).length = horizon_hours + 1 ∧
    (lowerPts r).length = horizon_hours + 1 ∧
    horizon_hours + 1 = 25 ∧
    (upperPts r).map Prod.fst = (forecastPts r).map Prod.fst ∧
    (lowerPts r).map Prod.fst = (forecastPts r).map Prod.fst := by
  refine ⟨?_, ?_, ?_, rfl, ?_, ?_⟩ <;>
    simp [forecastPts, upperPts, lowerPts, List.map_map, Function.comp]

/-- Claim C5: the first forecast point coincides in time with the last
history point, its value is the fitted trend evaluated at the last history
offset n - 1 (not the raw last observed value), and the future timestamps
and offsets step by exactly one hour through last offset + 24. -/
theorem C5_boundary (r : ForecastResult) (h : 1 ≤ r.history.length) :
    futureTs r 0 = (r.history.getLastD (0, 0)).1 ∧
    forecastVal r 0 = r.a * ((r.history.length : ℚ) - 1) + r.b ∧
    (∀ i, futureTs r (i + 1) = futureTs r i + 1) ∧
    (∀ i, futureT r.history.length i = ((r.history.length : ℚ) - 1) + (i : ℚ)) := by
  refine ⟨by simp [futureTs], ?_, fun i => ?_, fun i => ?_⟩
  · rw [forecastVal, polyval1, futureT, tHist_getLastD _ h]
    norm_num
  · simp only [futureTs]
    push_cast
    ring
  · rw [futureT, tHist_getLastD _ h]

/-- Claim C5 witness: on the concrete declining history the first
forecast value is the fitted trend at offset 9. -/
theorem C5_boundary_witness :
    forecastVal cRes 0 = cRes.a * ((cRes.history.length : ℚ) - 1) + cRes.b :=
  (C5_boundary cRes (by norm_num [cRes])).2.1

/-- Claim C3: with non-empty input, the forecaster fails with the
insufficient-data error exactly when the resampled hourly series has fewer
than 10 points, and succeeds exactly when it has at least 10 points. -/
theorem C3_density_threshold (obs : List Obs) (hne : obs ≠ []) :
    (forecaster obs = Except.error ForecastError.insufficientData ↔
      (resample obs).length < min_points_required) ∧
    ((∃ r, forecaster obs = Except.ok r) ↔
      min_points_required ≤ (resample obs).length) ∧
    min_points_required = 10 := by
  unfold forecaster
  rw [if_neg hne]
  by_cases h : (resample obs).length < min_points_required
  · rw [if_pos h]
    exact ⟨iff_of_true rfl h, iff_of_false (by simp) (by omega), rfl⟩
  · rw [if_neg h]
    exact ⟨iff_of_false (by simp) h, iff_of_true ⟨_, rfl⟩ (by omega), rfl⟩

/-- Claim C3 witness: a series of exactly 9 hourly points fails with the
insufficient-data error and a series of exactly 10 points succeeds. -/
theorem C3_density_threshold_witness :
    forecaster obs9 = Except.error ForecastError.insufficientData ∧
    (∃ r, forecaster obs10 = Except.ok r) := by
  have h9 : (resample obs9).length = 9 := by
    rw [resample_length, gridLen]
    rw [show firstHour obs9 = 0 by norm_num [firstHour, hourOf, obs9, defaultObs]]
    rw [show lastHour obs9 = 8 by norm_num [lastHour, hourOf, obs9, defaultObs]]
    decide
  have h10 : (resample obs10).length = 10 := by
    rw [resample_length, gridLen]
    rw [show firstHour obs10 = 0 by norm_num [firstHour, hourOf, obs10, defaultObs]]
    rw [show lastHour obs10 = 9 by norm_num [lastHour, hourOf, obs10, defaultObs]]
    decide
  exact ⟨(C3_density_threshold obs9 (by simp [obs9])).1.mpr (by rw [h9]; norm_num [min_points_required]),
    (C3_density_threshold obs10 (by simp [obs10])).2.1.mpr (by rw [h10]; norm_num [min_points_required])⟩

/-- Claim C1 counterexample: on the concrete declining history cObs the
pipeline succeeds, but at index 1 the fitted trend extrapolates to the
negative forecast value -1 while the clamped lower band is 0, so
lower_band[1] > forecast[1] and the claimed ordering fails. -/
theorem C1_counterexample :
    forecaster cObs = Except.ok cRes ∧
    (forecastVal cRes 1 : ℝ) < lowerVal cRes 1 := by
  refine ⟨cObs_forecaster, ?_⟩
  have h2 : cRes.sigma2 = 0 := rfl
  have hf : forecastVal cRes 1 = -1 := by rw [cRes_forecastVal]; norm_num
  simp only [lowerVal, sigma, h2, hf]
  norm_num [Real.sqrt_zero]

/-- Claim C1 (amended): the point forecast never exceeds the upper band,
and the lower band is below the point forecast at every index where the
point forecast is non-negative; at indices where the fitted trend
extrapolates below zero the clamped lower band exceeds the forecast. -/
theorem C1_band_order (r : ForecastResult) (i : ℕ) :
    (forecastVal r i : ℝ) ≤ upperVal r i ∧
    (0 ≤ forecastVal r i → lowerVal r i ≤ (forecastVal r i : ℝ)) := by
  have hs : (0 : ℝ) ≤ Real.sqrt (r.sigma2 : ℝ) := Real.sqrt_nonneg _
  constructor
  · simp only [upperVal, sigma]
    nlinarith
  · intro h
    have h0 : (0 : ℝ) ≤ (forecastVal r i : ℝ) := by exact_mod_cast h
    simp only [lowerVal, sigma]
    exact max_le h0 (by nlinarith)

/-- Claim C1 (amended) witness: on the concrete declining history the
forecast value at index 0 is non-negative and the lower band sits below
it. -/
theorem C1_band_order_witness :
    lowerVal cRes 0 ≤ (forecastVal cRes 0 : ℝ) :=
  (C1_band_order cRes 0).2 (by rw [cRes_forecastVal]; norm_num)

/-- Claim C10: the forecast sequence is affine in its index with exact
per-hour increment a, the upper band has the same increment, and the
forecast is monotone non-decreasing over the horizon exactly when the
fitted slope a is non-negative. -/
theorem C10_affine_in_index (r : ForecastResult) :
    (∀ i, i < horizon_hours →
      forecastVal r (i + 1) - forecastVal r i = r.a ∧
      upperVal r (i + 1) - upperVal r i = (r.a : ℝ)) ∧
    ((∀ i, i < horizon_hours → forecastVal r i ≤ forecastVal r (i + 1)) ↔ 0 ≤ r.a) := by
  have hstep : ∀ i : ℕ, forecastVal r (i + 1) - forecastVal r i = r.a := by
    intro i
    simp only [forecastVal, polyval1, futureT]
    push_cast
    ring
  constructor
  · intro i _
    refine ⟨hstep i, ?_⟩
    have hc := congrArg (fun q : ℚ => (q : ℝ)) (hstep i)
    push_cast at hc
    simp only [upperVal]
    linarith
  · constructor
    · intro h
      have h0 := h 0 (by norm_num [horizon_hours])
      have := hstep 0
      linarith
    · intro ha i _
      have := hstep i
      linarith

lemma dot_cons (x y : ℚ) (xs ys : List ℚ) :
    dot (x :: xs) (y :: ys) = x * y + dot xs ys := by
  simp [dot, List.zip_cons_cons]

lemma sum_zip_affine (a b : ℚ) : ∀ ts ys : List ℚ, ts.length = ys.length →
    ((ts.zip ys).map (fun p => p.2 - (a * p.1 + b))).sum
      = ys.sum - (a * ts.sum + (ts.length : ℚ) * b)
  | [], [], _ => by simp
  | [], _ :: _, h => by simp at h
  | _ :: _, [], h => by simp at h
  | t :: ts, y :: ys, h => by
    have ih := sum_zip_affine a b ts ys (by simpa using h)
    simp only [List.zip_cons_cons, List.map_cons, List.sum_cons, ih, List.length_cons]
    push_cast
    ring

lemma residuals_sum (ts ys : List ℚ) (hl : ts.length = ys.length)
    (h0 : ys.length ≠ 0) : (residuals ts ys).sum = 0 := by
  have h := sum_zip_affine (polyfit1 ts ys).1 (polyfit1 ts ys).2 ts ys hl
  have hform : residuals ts ys =
      (ts.zip ys).map (fun p => p.2 -
        ((polyfit1 ts ys).1 * p.1 + (polyfit1 ts ys).2)) := by
    simp [residuals, polyval1]
  rw [hform, h, hl]
  have hn : ((ys.length : ℚ)) ≠ 0 := Nat.cast_ne_zero.mpr h0
  have hb : (polyfit1 ts ys).2 = (ys.sum - (polyfit1 ts ys).1 * ts.sum) / (ys.length : ℚ) := rfl
  rw [hb]
  field_simp

lemma residuals_length (ts ys : List ℚ) (hl : ts.length = ys.length) :
    (residuals ts ys).length = ys.length := by
  simp [residuals, hl]

lemma sum_map_affine (a b : ℚ) : ∀ ts : List ℚ,
    (ts.map (fun t => a * t + b)).sum = a * ts.sum + (ts.length : ℚ) * b
  | [] => by simp
  | t :: ts => by
    simp only [List.map_cons, List.sum_cons, sum_map_affine a b ts, List.length_cons]
    push_cast
    ring

lemma dot_map_affine (a b : ℚ) : ∀ ts : List ℚ,
    dot ts (ts.map (fun t => a * t + b)) = a * dot ts ts + b * ts.sum
  | [] => by simp [dot]
  | t :: ts => by
    simp only [List.map_cons, dot_cons, dot_map_affine a b ts, List.sum_cons]
    ring

lemma polyfit1_affine (ts : List ℚ) (a b : ℚ)
    (hn : (ts.length : ℚ) ≠ 0)
    (hd : (ts.length : ℚ) * dot ts ts - ts.sum * ts.sum ≠ 0) :
    polyfit1 ts (ts.map (fun t => a * t + b)) = (a, b) := by
  have hA : fitSlope ts (ts.map (fun t => a * t + b)) = a := by
    rw [fitSlope, sum_map_affine, dot_map_affine, List.length_map]
    have hnum : (ts.length : ℚ) * (a * dot ts ts + b * ts.sum) -
        ts.sum * (a * ts.sum + (ts.length : ℚ) * b) =
        a * ((ts.length : ℚ) * dot ts ts - ts.sum * ts.sum) := by ring
    rw [hnum, mul_div_assoc, div_self hd, mul_one]
  rw [polyfit1, hA, sum_map_affine, List.length_map]
  have hb : (a * ts.sum + (ts.length : ℚ) * b - a * ts.sum) = (ts.length : ℚ) * b := by ring
  rw [hb, mul_comm, mul_div_assoc, div_self hn, mul_one]

lemma residuals_affine (ts : List ℚ) (a b : ℚ)
    (hfit : polyfit1 ts (ts.map (fun t => a * t + b)) = (a, b)) :
    residuals ts (ts.map (fun t => a * t + b)) = ts.map (fun _ => 0) := by
  rw [residuals, hfit]
  clear hfit
  induction ts with
  | nil => simp
  | cons t ts ih => simpa [List.zip_cons_cons, polyval1] using ih

lemma sum_map_zero (l : List ℚ) : (l.map (fun _ => (0 : ℚ))).sum = 0 := by
  induction l <;> simp [*]

lemma npVar_map_zero (l : List ℚ) : npVar (l.map (fun _ => (0 : ℚ))) = 0 := by
  have hm : mean (l.map (fun _ => (0 : ℚ))) = 0 := by
    rw [mean, sum_map_zero]
    simp
  rw [npVar]
  simp only [hm, sub_zero, List.map_map, Function.comp]
  have hz : ((l.map (fun _ => ((0 : ℚ) ^ 2))).sum) = 0 := by
    induction l <;> simp [*]
  simp only [Function.comp_def]
  rw [show (l.map fun _ => (0 : ℚ) ^ 2).sum = 0 by induction l <;> simp [*]]
  simp

lemma tHist_succ (n : ℕ) : tHist (n + 1) = tHist n ++ [(n : ℚ)] := by
  simp [tHist, List.range_succ]

lemma tHist_sum (n : ℕ) : (tHist n).sum = (n : ℚ) * ((n : ℚ) - 1) / 2 := by
  induction n with
  | zero => simp [tHist]
  | succ m ih =>
    rw [tHist_succ, List.sum_append, ih]
    simp only [List.sum_cons, List.sum_nil]
    push_cast
    ring

lemma dot_append_singleton (xs ys : List ℚ) (x y : ℚ) (h : xs.length = ys.length) :
    dot (xs ++ [x]) (ys ++ [y]) = dot xs ys + x * y := by
  rw [dot, List.zip_append h, List.map_append, List.sum_append]
  simp [dot, List.zip_cons_cons]

lemma tHist_dot (n : ℕ) :
    dot (tHist n) (tHist n) = (n : ℚ) * ((n : ℚ) - 1) * (2 * (n : ℚ) - 1) / 6 := by
  induction n with
  | zero => simp [tHist, dot]
  | succ m ih =>
    rw [tHist_succ, dot_append_singleton _ _ _ _ rfl, ih]
    push_cast
    ring

lemma fitDenom_pos (n : ℕ) (h : 2 ≤ n) :
    0 < (n : ℚ) * dot (tHist n) (tHist n) - (tHist n).sum * (tHist n).sum := by
  rw [tHist_dot, tHist_sum]
  have hn : (2 : ℚ) ≤ (n : ℚ) := by exact_mod_cast h
  have hrw : (n : ℚ) * ((n : ℚ) * ((n : ℚ) - 1) * (2 * (n : ℚ) - 1) / 6) -
      (n : ℚ) * ((n : ℚ) - 1) / 2 * ((n : ℚ) * ((n : ℚ) - 1) / 2) =
      (n : ℚ) ^ 2 * ((n : ℚ) ^ 2 - 1) / 12 := by ring
  rw [hrw]
  have h1 : (0 : ℚ) < (n : ℚ) ^ 2 := by nlinarith
  have h2 : (0 : ℚ) < (n : ℚ) ^ 2 - 1 := by nlinarith
  positivity

/-- Claim C8: the pipeline sigma is the population standard deviation
(divisor N, not N - 1) of the least-squares residuals: the residuals of
the affine fit sum to zero, so the mean-centred variance npVar coincides
with the plain mean of squared residuals, and sigma is its square root,
matching the spec-side popStd definition. -/
theorem C8_sigma_population_std (ts : List (ℚ × ℚ)) (h : 1 ≤ ts.length) :
    sigma (mkResult ts) = popStd (residuals (tHist ts.length) (ts.map Prod.snd)) ∧
    (residuals (tHist ts.length) (ts.map Prod.snd)).sum = 0 ∧
    npVar (residuals (tHist ts.length) (ts.map Prod.snd)) =
      ((residuals (tHist ts.length) (ts.map Prod.snd)).map (fun x => x ^ 2)).sum /
        (ts.length : ℚ) := by
  have hlen : (tHist ts.length).length = (ts.map Prod.snd).length := by
    rw [tHist_length, List.length_map]
  have h0 : (ts.map Prod.snd).length ≠ 0 := by
    rw [List.length_map]
    omega
  have hsum : (residuals (tHist ts.length) (ts.map Prod.snd)).sum = 0 :=
    residuals_sum _ _ hlen h0
  have hrlen : (residuals (tHist ts.length) (ts.map Prod.snd)).length = ts.length := by
    rw [residuals_length _ _ hlen, List.length_map]
  refine ⟨rfl, hsum, ?_⟩
  have hmean : mean (residuals (tHist ts.length) (ts.map Prod.snd)) = 0 := by
    rw [mean, hsum]
    simp
  rw [npVar, hrlen]
  simp only [hmean, sub_zero]

/-- Claim C8 witness: on a concrete three-point hourly series the
least-squares residuals sum to zero. -/
theorem C8_sigma_population_std_witness :
    (residuals (tHist c8ts.length) (c8ts.map Prod.snd)).sum = 0 :=
  (C8_sigma_population_std c8ts (by norm_num [c8ts])).2.1

/-- Claim C9: on a noiseless affine history value = 2 * t + 1 the fit
recovers slope 2 and intercept 1 exactly with zero residual variance, and
on a constant history of value c the fit is (0, c) with zero residual
variance, every forecast value equals c, and the confidence band has
width zero. -/
theorem C9_exact_fit (n : ℕ) (hn : 2 ≤ n) (c : ℚ) (hc : 0 ≤ c) :
    polyfit1 (tHist n) ((tHist n).map (fun t => 2 * t + 1)) = (2, 1) ∧
    npVar (residuals (tHist n) ((tHist n).map (fun t => 2 * t + 1))) = 0 ∧
    (mkResult (constHist n c)).a = 0 ∧
    (mkResult (constHist n c)).b = c ∧
    (mkResult (constHist n c)).sigma2 = 0 ∧
    (∀ i, forecastVal (mkResult (constHist n c)) i = c) ∧
    (∀ i, upperVal (mkResult (constHist n c)) i - lowerVal (mkResult (constHist n c)) i = 0) := by
  have hn0 : ((tHist n).length : ℚ) ≠ 0 := by
    rw [tHist_length]
    have : (0 : ℚ) < (n : ℚ) := by exact_mod_cast Nat.lt_of_lt_of_le (by norm_num) hn
    exact ne_of_gt this
  have hd : ((tHist n).length : ℚ) * dot (tHist n) (tHist n) -
      (tHist n).sum * (tHist n).sum ≠ 0 := by
    rw [tHist_length]
    exact ne_of_gt (fitDenom_pos n hn)
  have hfit2 : polyfit1 (tHist n) ((tHist n).map (fun t => 2 * t + 1)) = (2, 1) :=
    polyfit1_affine _ 2 1 hn0 hd
  have hvar2 : npVar (residuals (tHist n) ((tHist n).map (fun t => 2 * t + 1))) = 0 := by
    rw [residuals_affine _ 2 1 hfit2, npVar_map_zero]
  have hconstmap : (constHist n c).map Prod.snd = (tHist n).map (fun t => 0 * t + c) := by
    simp [constHist, List.map_map, Function.comp_def]
  have hconstlen : (constHist n c).length = n := by
    rw [constHist, List.length_map, tHist_length]
  have hfitc : polyfit1 (tHist n) ((tHist n).map (fun t => 0 * t + c)) = (0, c) :=
    polyfit1_affine _ 0 c hn0 hd
  have hA : (mkResult (constHist n c)).a = 0 := by
    rw [mkResult]
    simp only [hconstlen, hconstmap, hfitc]
  have hB : (mkResult (constHist n c)).b = c := by
    rw [mkResult]
    simp only [hconstlen, hconstmap, hfitc]
  have hS : (mkResult (constHist n c)).sigma2 = 0 := by
    rw [mkResult]
    simp only [hconstlen, hconstmap]
    rw [residuals_affine _ 0 c hfitc, npVar_map_zero]
  have hfc : ∀ i, forecastVal (mkResult (constHist n c)) i = c := by
    intro i
    rw [forecastVal, hA, hB, polyval1]
    ring
  refine ⟨hfit2, hvar2, hA, hB, hS, hfc, fun i => ?_⟩
  have hsig : sigma (mkResult (constHist n c)) = 0 := by
    rw [sigma, hS]
    simp
  rw [upperVal, lowerVal, hsig, hfc i]
  have hcr : (0 : ℝ) ≤ (c : ℝ) := by exact_mod_cast hc
  rw [mul_zero, add_zero, sub_zero, max_eq_right hcr, sub_self]

/-- Claim C9 witness: with a ten-point history the exact affine fit
recovers coefficients (2, 1). -/
theorem C9_exact_fit_witness :
    polyfit1 (tHist 10) ((tHist 10).map (fun t => 2 * t + 1)) = (2, 1) :=
  (C9_exact_fit 10 (by norm_num) 3 (by norm_num)).1

lemma getD_eq_some_lt (l : List (Option ℚ)) (k : ℕ) (v : ℚ)
    (h : l.getD k none = some v) : k < l.length := by
  by_contra hk
  rw [List.getD_eq_default _ _ (by omega)] at h
  cases h

lemma getD_map_range {α : Type} (f : ℕ → α) (d : α) {n k : ℕ} (hk : k < n) :
    ((List.range n).map f).getD k d = f k := by
  rw [List.getD_eq_getElem?_getD, List.getElem?_map, List.getElem?_range hk]
  rfl

lemma findPrev_spec (l : List (Option ℚ)) :
    ∀ k j v, findPrev l k = some (j, v) →
      j < k ∧ l.getD j none = some v ∧ ∀ m, j < m → m < k → l.getD m none = none := by
  intro k
  induction k with
  | zero => intro j v h; simp [findPrev] at h
  | succ k ih =>
    intro j v h
    simp only [findPrev] at h
    cases hk : l.getD k none with
    | some w =>
      rw [hk] at h
      simp only [Option.some.injEq, Prod.mk.injEq] at h
      obtain ⟨rfl, rfl⟩ := h
      exact ⟨Nat.lt_succ_self _, hk, fun m hm1 hm2 => by omega⟩
    | none =>
      rw [hk] at h
      obtain ⟨h1, h2, h3⟩ := ih j v h
      refine ⟨Nat.lt_succ_of_lt h1, h2, fun m hm1 hm2 => ?_⟩
      rcases Nat.lt_succ_iff_lt_or_eq.mp hm2 with hm | rfl
      · exact h3 m hm1 hm
      · exact hk

lemma findPrev_isSome (l : List (Option ℚ)) :
    ∀ k j v, j < k → l.getD j none = some v → ∃ p, findPrev l k = some p := by
  intro k
  induction k with
  | zero => intro j v h; omega
  | succ k ih =>
    intro j v hjk hj
    cases hk : l.getD k none with
    | some w => exact ⟨(k, w), by simp only [findPrev]; rw [hk]⟩
    | none =>
      have hjk2 : j < k := by
        rcases Nat.lt_succ_iff_lt_or_eq.mp hjk with hx | rfl
        · exact hx
        · rw [hj] at hk; cases hk
      obtain ⟨p, hp⟩ := ih j v hjk2 hj
      exact ⟨p, by simp only [findPrev]; rw [hk]; exact hp⟩

lemma firstSome_spec : ∀ (l : List (Option ℚ)) (j : ℕ) (v : ℚ),
    firstSome l = some (j, v) →
      l.getD j none = some v ∧ ∀ m, m < j → l.getD m none = none
  | [], j, v, h => by simp [firstSome] at h
  | none :: rest, j, v, h => by
    simp only [firstSome] at h
    cases hr : firstSome rest with
    | none => rw [hr] at h; cases h
    | some p =>
      rw [hr] at h
      simp only [Option.map_some', Option.some.injEq] at h
      obtain ⟨h1, h2⟩ := firstSome_spec rest p.1 p.2 (by rw [hr])
      rw [Prod.mk.injEq] at h
      obtain ⟨hj, hv⟩ := h
      subst hj
      subst hv
      refine ⟨by simpa using h1, fun m hm => ?_⟩
      cases m with
      | zero => rfl
      | succ m =>
        have := h2 m (by omega)
        simpa using this
  | some w :: rest, j, v, h => by
    simp only [firstSome, Option.some.injEq, Prod.mk.injEq] at h
    obtain ⟨rfl, rfl⟩ := h.symm
    exact ⟨rfl, fun m hm => by omega⟩

lemma firstSome_isSome : ∀ (l : List (Option ℚ)) (j : ℕ) (v : ℚ),
    l.getD j none = some v → ∃ p, firstSome l = some p
  | [], j, v, h => by simp at h
  | none :: rest, j, v, h => by
    cases j with
    | zero => simp at h
    | succ j =>
      rw [List.getD_cons_succ] at h
      obtain ⟨p, hp⟩ := firstSome_isSome rest j v h
      exact ⟨(p.1 + 1, p.2), by simp only [firstSome]; rw [hp]; rfl⟩
  | some w :: rest, _, _, _ => ⟨(0, w), rfl⟩

lemma getD_drop (l : List (Option ℚ)) : ∀ (i j : ℕ),
    (l.drop i).getD j none = l.getD (i + j) none := by
  induction l with
  | nil => intro i j; simp
  | cons a l ih =>
    intro i j
    cases i with
    | zero => simp
    | succ i =>
      rw [List.drop_succ_cons, Nat.succ_add, List.getD_cons_succ]
      exact ih i j

lemma findNext_spec (l : List (Option ℚ)) (k m : ℕ) (v : ℚ)
    (h : findNext l k = some (m, v)) :
    k < m ∧ l.getD m none = some v ∧ ∀ q, k < q → q < m → l.getD q none = none := by
  rw [findNext] at h
  cases hr : firstSome (l.drop (k + 1)) with
  | none => rw [hr] at h; cases h
  | some p =>
    rw [hr] at h
    simp only [Option.map_some', Option.some.injEq] at h
    obtain ⟨h1, h2⟩ := firstSome_spec _ p.1 p.2 (by rw [hr])
    rw [getD_drop] at h1
    rw [Prod.mk.injEq] at h
    obtain ⟨hm2, hv⟩ := h
    subst hm2
    subst hv
    refine ⟨by omega, h1, fun q hq1 hq2 => ?_⟩
    have hgap := h2 (q - (k + 1)) (by omega)
    rw [getD_drop] at hgap
    have heq : k + 1 + (q - (k + 1)) = q := by omega
    rwa [heq] at hgap

lemma findNext_isSome (l : List (Option ℚ)) (k m : ℕ) (v : ℚ)
    (hkm : k < m) (h : l.getD m none = some v) :
    ∃ p, findNext l k = some p := by
  have hd : (l.drop (k + 1)).getD (m - (k + 1)) none = some v := by
    rw [getD_drop]
    have heq : k + 1 + (m - (k + 1)) = m := by omega
    rw [heq]
    exact h
  obtain ⟨p, hp⟩ := firstSome_isSome _ _ _ hd
  exact ⟨(k + 1 + p.1, p.2), by rw [findNext, hp]; rfl⟩

lemma interpAt_of_some (l : List (Option ℚ)) (k : ℕ) (v : ℚ)
    (h : l.getD k none = some v) : interpAt l k = some v := by
  simp only [interpAt]
  rw [h]

lemma interpAt_interp (l : List (Option ℚ)) (k j m : ℕ) (vj vm : ℚ)
    (hk : l.getD k none = none) (hp : findPrev l k = some (j, vj))
    (hn : findNext l k = some (m, vm)) :
    interpAt l k =
      some (vj + (vm - vj) * ((k : ℚ) - (j : ℚ)) / ((m : ℚ) - (j : ℚ))) := by
  simp only [interpAt]
  rw [hk, hp, hn]

lemma rawBuckets_length (obs : List Obs) : (rawBuckets obs).length = gridLen obs := by
  rw [rawBuckets, List.length_map, List.length_range]

lemma rawBuckets_getD (obs : List Obs) {k : ℕ} (hk : k < gridLen obs) :
    (rawBuckets obs).getD k none =
      if bucket obs (firstHour obs + (k : ℤ)) = [] then none
      else some (mean (bucket obs (firstHour obs + (k : ℤ)))) := by
  rw [rawBuckets]
  exact getD_map_range _ _ hk

lemma resample_getD (obs : List Obs) {k : ℕ} (hk : k < gridLen obs) :
    (resample obs).getD k (0, 0) =
      ((firstHour obs : ℚ) + (k : ℚ), (interpAt (rawBuckets obs) k).getD 0) := by
  rw [resample]
  exact getD_map_range _ _ hk

lemma headD_mem {α : Type} (l : List α) (d : α) (h : l ≠ []) : l.headD d ∈ l := by
  cases l with
  | nil => exact absurd rfl h
  | cons a l => simp

lemma getLastD_mem {α : Type} : ∀ (l : List α) (d : α), l ≠ [] → l.getLastD d ∈ l
  | [], _, h => absurd rfl h
  | [a], d, _ => by simp [List.getLastD_eq_getLast?]
  | a :: b :: l, d, _ => by
    rw [List.getLastD_eq_getLast?, List.getLast?_cons_cons]
    have hmem := getLastD_mem (b :: l) d (by simp)
    rw [List.getLastD_eq_getLast?] at hmem
    exact List.mem_cons_of_mem a hmem

lemma bucket_ne_nil_of_mem (obs : List Obs) (o : Obs) (ho : o ∈ obs) :
    bucket obs (hourOf o) ≠ [] := by
  rw [bucket]
  intro h
  rw [ List.map_eq_nil_iff] at h
  have hmem : o ∈ obs.filter (fun x => decide (hourOf x = hourOf o)) :=
    List.mem_filter.mpr ⟨ho, by simp⟩
  rw [h] at hmem
  cases hmem

lemma bucket_first_ne (obs : List Obs) (h : obs ≠ []) :
    bucket obs (firstHour obs) ≠ [] :=
  bucket_ne_nil_of_mem obs (obs.headD defaultObs) (headD_mem obs defaultObs h)

lemma bucket_last_ne (obs : List Obs) (h : obs ≠ []) :
    bucket obs (lastHour obs) ≠ [] :=
  bucket_ne_nil_of_mem obs (obs.getLastD defaultObs) (getLastD_mem obs defaultObs h)

lemma firstHour_le_lastHour (obs : List Obs)
    (hspan : (obs.headD defaultObs).t + 1 ≤ (obs.getLastD defaultObs).t) :
    firstHour obs ≤ lastHour obs := by
  rw [firstHour, lastHour, hourOf, hourOf]
  exact Int.floor_le_floor (by linarith)

lemma grid_last_hour (obs : List Obs) (hle : firstHour obs ≤ lastHour obs) :
    firstHour obs + ((gridLen obs - 1 : ℕ) : ℤ) = lastHour obs := by
  rw [gridLen]
  have heq : ((lastHour obs - firstHour obs).toNat + 1 - 1 : ℕ) =
      (lastHour obs - firstHour obs).toNat := by omega
  rw [heq, Int.toNat_of_nonneg (by omega)]
  omega

lemma rawBuckets_getD_zero (obs : List Obs) (h : obs ≠ []) :
    (rawBuckets obs).getD 0 none = some (mean (bucket obs (firstHour obs))) := by
  have h0 : (0 : ℕ) < gridLen obs := by rw [gridLen]; omega
  rw [rawBuckets_getD obs h0]
  rw [show firstHour obs + ((0 : ℕ) : ℤ) = firstHour obs by simp]
  rw [if_neg (bucket_first_ne obs h)]

lemma rawBuckets_getD_last (obs : List Obs) (h : obs ≠ [])
    (hle : firstHour obs ≤ lastHour obs) :
    (rawBuckets obs).getD (gridLen obs - 1) none =
      some (mean (bucket obs (lastHour obs))) := by
  have hk : gridLen obs - 1 < gridLen obs := by rw [gridLen]; omega
  rw [rawBuckets_getD obs hk, grid_last_hour obs hle,
    if_neg (bucket_last_ne obs h)]

/-- Claim C7: on an ordered non-empty observation sequence spanning at
least one hour, the resampled series covers the hour grid from the floor
of the first timestamp to the floor of the last timestamp inclusive at
one-hour resolution; every bucket with data carries the mean of the
observations whose timestamps fall in that hour, and every empty bucket is
filled by linear interpolation between the nearest hours that have data. -/
theorem C7_resampler (obs : List Obs) (hne : obs ≠ [])
    (hsort : obs.Pairwise (fun x y => x.t ≤ y.t))
    (hspan : (obs.headD defaultObs).t + 1 ≤ (obs.getLastD defaultObs).t) :
    firstHour obs ≤ lastHour obs ∧
    (resample obs).length = (lastHour obs - firstHour obs).toNat + 1 ∧
    (∀ k, k < (resample obs).length →
      ((resample obs).getD k (0, 0)).1 = (firstHour obs : ℚ) + (k : ℚ)) ∧
    (∀ k, k < (resample obs).length →
      bucket obs (firstHour obs + (k : ℤ)) ≠ [] →
      ((resample obs).getD k (0, 0)).2 = mean (bucket obs (firstHour obs + (k : ℤ)))) ∧
    (∀ k, k < (resample obs).length →
      bucket obs (firstHour obs + (k : ℤ)) = [] →
      ∃ j m : ℕ, j < k ∧ k < m ∧ m < (resample obs).length ∧
        bucket obs (firstHour obs + (j : ℤ)) ≠ [] ∧
        bucket obs (firstHour obs + (m : ℤ)) ≠ [] ∧
        (∀ q, j < q → q < m → bucket obs (firstHour obs + (q : ℤ)) = []) ∧
        ((resample obs).getD k (0, 0)).2 =
          mean (bucket obs (firstHour obs + (j : ℤ))) +
            (mean (bucket obs (firstHour obs + (m : ℤ))) -
              mean (bucket obs (firstHour obs + (j : ℤ)))) *
              ((k : ℚ) - (j : ℚ)) / ((m : ℚ) - (j : ℚ))) := by
  have hle := firstHour_le_lastHour obs hspan
  have hglen : (resample obs).length = gridLen obs := resample_length obs
  refine ⟨hle, by rw [hglen, gridLen], fun k hk => ?_, fun k hk hb => ?_,
    fun k hk hb => ?_⟩
  · rw [hglen] at hk
    rw [resample_getD obs hk]
  · rw [hglen] at hk
    rw [resample_getD obs hk]
    have hraw : (rawBuckets obs).getD k none =
        some (mean (bucket obs (firstHour obs + (k : ℤ)))) := by
      rw [rawBuckets_getD obs hk, if_neg hb]
    rw [interpAt_of_some _ _ _ hraw]
    rfl
  · rw [hglen] at hk
    have hg1 : 1 ≤ gridLen obs := by rw [gridLen]; omega
    have hk0 : k ≠ 0 := by
      rintro rfl
      rw [show firstHour obs + ((0 : ℕ) : ℤ) = firstHour obs by simp] at hb
      exact bucket_first_ne obs hne hb
    have hklast : k ≠ gridLen obs - 1 := by
      rintro rfl
      rw [grid_last_hour obs hle] at hb
      exact bucket_last_ne obs hne hb
    have hrawk : (rawBuckets obs).getD k none = none := by
      rw [rawBuckets_getD obs hk, if_pos hb]
    obtain ⟨⟨j, vj⟩, hp⟩ :=
      findPrev_isSome (rawBuckets obs) k 0 _ (by omega) (rawBuckets_getD_zero obs hne)
    obtain ⟨hjk, hj, hgapP⟩ := findPrev_spec (rawBuckets obs) k j vj hp
    obtain ⟨⟨m, vm⟩, hn2⟩ :=
      findNext_isSome (rawBuckets obs) k (gridLen obs - 1) _ (by omega)
        (rawBuckets_getD_last obs hne hle)
    obtain ⟨hkm, hm, hgapN⟩ := findNext_spec (rawBuckets obs) k m vm hn2
    have hmlt : m < gridLen obs := by
      have hlt := getD_eq_some_lt (rawBuckets obs) m vm hm
      rwa [rawBuckets_length] at hlt
    have hjlt : j < gridLen obs := by omega
    have hbj : bucket obs (firstHour obs + (j : ℤ)) ≠ [] ∧
        vj = mean (bucket obs (firstHour obs + (j : ℤ))) := by
      have hgj := rawBuckets_getD obs hjlt
      rw [hj] at hgj
      by_cases hc : bucket obs (firstHour obs + (j : ℤ)) = []
      · rw [if_pos hc] at hgj
        cases hgj
      · rw [if_neg hc] at hgj
        exact ⟨hc, (Option.some.injEq _ _).mp hgj⟩
    have hbm : bucket obs (firstHour obs + (m : ℤ)) ≠ [] ∧
        vm = mean (bucket obs (firstHour obs + (m : ℤ))) := by
      have hgm := rawBuckets_getD obs hmlt
      rw [hm] at hgm
      by_cases hc : bucket obs (firstHour obs + (m : ℤ)) = []
      · rw [if_pos hc] at hgm
        cases hgm
      · rw [if_neg hc] at hgm
        exact ⟨hc, (Option.some.injEq _ _).mp hgm⟩
    have hgap : ∀ q, j < q → q < m → bucket obs (firstHour obs + (q : ℤ)) = [] := by
      intro q hq1 hq2
      have hqlt : q < gridLen obs := by omega
      have hqnone : (rawBuckets obs).getD q none = none := by
        rcases Nat.lt_trichotomy q k with hlt | rfl | hgt
        · exact hgapP q hq1 hlt
        · exact hrawk
        · exact hgapN q hgt hq2
      have hgq := rawBuckets_getD obs hqlt
      rw [hqnone] at hgq
      by_cases hc : bucket obs (firstHour obs + (q : ℤ)) = []
      · exact hc
      · rw [if_neg hc] at hgq
        cases hgq
    refine ⟨j, m, hjk, hkm, by rw [hglen]; exact hmlt, hbj.1, hbm.1, hgap, ?_⟩
    rw [resample_getD obs hk]
    show (interpAt (rawBuckets obs) k).getD 0 = _
    rw [interpAt_interp (rawBuckets obs) k j m vj vm hrawk hp hn2]
    rw [Option.getD_some, ← hbj.2, ← hbm.2]

/-- Claim C7 witness: the two-observation input c7obs (2.5 hours apart)
satisfies the hypotheses; its resampled series covers the three-bucket
hour grid. -/
theorem C7_resampler_witness :
    firstHour c7obs ≤ lastHour c7obs ∧
    (resample c7obs).length = (lastHour c7obs - firstHour c7obs).toNat + 1 := by
  have h := C7_resampler c7obs (by simp [c7obs])
    (by norm_num [c7obs, List.pairwise_cons])
    (by norm_num [c7obs, defaultObs])
  exact ⟨h.1, h.2.1⟩

end NazareForecast
